import Mathlib

/-!
Verification of `p3/management/commands/talk_abstracts.py` (epcon).

The script is a single-pass report generator: it reads talks, speakers,
tickets and orders from a Django-managed store, derives per-talk fields,
groups and sorts the talks and prints them as JSON.  We embed the store as
explicit lists of records, Python functions as Lean functions, and code
that can raise (`RuntimeError`, attribute errors, re-raised exceptions) as
`Except String`-valued functions.
-/

/-- A fare attached to a ticket; only its `code` is read (`tkt.fare.code`). -/
structure Fare where
  code : String
deriving DecidableEq

/-- A `conference.Ticket` row: primary key `id`, owner `user_id`
(`user.ticket_set` is the set of tickets whose `user_id` is the user's id),
and its fare. -/
structure Ticket where
  id : Nat
  user_id : Nat
  fare : Fare
deriving DecidableEq

/-- A `p3.TicketConference` row.  It carries a foreign key to its
`conference.Ticket` (embedded here, so `ticket_id` is `ticket.id`) and the
`assigned_to` email.  In the store `assigned_to` may be NULL (`none`) or a
string; Python's truthiness test `not tkt.assigned_to` accepts both NULL
and the empty string. -/
structure TicketConference where
  ticket : Ticket
  assigned_to : Option String
deriving DecidableEq

/-- `p3.TicketConference.assigned_to` is Python-falsy: NULL or empty. -/
def pyFalsyAssigned (a : Option String) : Bool :=
  match a with
  | none => true
  | some s => s = ""

/-- An attendee profile's `p3_profile`; only `twitter` is read. -/
structure P3Profile where
  twitter : String
deriving DecidableEq

/-- An attendee profile; `company` and the nested `p3_profile` are read. -/
structure AttendeeProfile where
  company : String
  p3_profile : P3Profile
deriving DecidableEq

/-- A Django auth user as used by the script: `id`, `email`, name parts and
the optional attendee profile (`speaker.user.attendeeprofile`, tested for
truthiness in `speaker_companies`). -/
structure User where
  id : Nat
  email : String
  first_name : String
  last_name : String
  attendeeprofile : Option AttendeeProfile
deriving DecidableEq

/-- A speaker of a talk; the script only dereferences `speaker.user`. -/
structure Speaker where
  user : User
deriving DecidableEq

/-- An `assopy.OrderItem` row: an optional link to a ticket
(`ordi.ticket`, filtered with `is not None`). -/
structure OrderItem where
  ticket : Option Ticket
deriving DecidableEq

/-- An `assopy.Order` row: purchasing user, completion flag `_complete`,
and its order items (`order.orderitem_set`). -/
structure Order where
  user_id : Nat
  complete : Bool
  items : List OrderItem
deriving DecidableEq

/-- A tag on a talk (`talk.tags`): its string form and its category. -/
structure Tag where
  name : String
  category : String
deriving DecidableEq

/-- A track of an event (`event.tracks`); only `title` is read. -/
structure Track where
  title : String
deriving DecidableEq

/-- A scheduled event of a talk.  `get_time_range()` yields a pair whose
components are formatted with `str`; we store those strings directly. -/
structure Event where
  time_start : String
  time_end : String
  tracks : List Track
deriving DecidableEq

/-- A `conference.Talk` row with the fields and external display strings the
script reads.  The `*_display` fields stand for Django's
`get_FOO_display()` results, which live outside this file's source; they are
plain store data here.  `event` models `talk.get_event()` (at most one
event per talk), `speakers` the talk's speakers including co-speakers in
store order. -/
structure Talk where
  id : Nat
  conference : String
  status : String
  type : String
  admin_type : String
  title : String
  sub_title : String
  duration : Nat
  admin_type_display : String
  type_display : String
  level_display : String
  language_display : String
  tags : List Tag
  abstracts : List String
  abstract_short : String
  abstract_extra : String
  sub_community : String
  absolute_url : String
  event : Option Event
  speakers : List Speaker
deriving DecidableEq

/-- A `conference.VotoTalk` row: `(talk, user, vote)`. -/
structure Voto where
  talk_id : Nat
  user_id : Nat
  vote : Int
deriving DecidableEq

/-- The read-only store backing the ORM queries the script issues. -/
structure Store where
  ticketConferences : List TicketConference
  tickets : List Ticket
  orders : List Order
  talks : List Talk
  votes : List Voto
deriving DecidableEq

instance {ε α : Type} [DecidableEq ε] [DecidableEq α] : DecidableEq (Except ε α) :=
  fun a b =>
    match a, b with
    | Except.ok x, Except.ok y =>
      if h : x = y then isTrue (by rw [h]) else isFalse (by intro hc; cases hc; exact h rfl)
    | Except.error x, Except.error y =>
      if h : x = y then isTrue (by rw [h]) else isFalse (by intro hc; cases hc; exact h rfl)
    | Except.ok _, Except.error _ => isFalse (by intro hc; cases hc)
    | Except.error _, Except.ok _ => isFalse (by intro hc; cases hc)

/-- Modelled from the spec: `Talk.get_all_speakers` is defined in
`conference.models`, outside this file's source.  Per the spec it yields all
speakers of the talk, co-speakers included, in the store's natural speaker
order; we model it as the talk's speaker list. -/
def get_all_speakers (t : Talk) : List Speaker :=
  t.speakers

/-- `get_orders_from`: completed orders of the user
(`Order.objects.filter(_complete=True, user=user.id)`). -/
def get_orders_from (user : User) (store : Store) : List Order :=
  store.orders.filter (fun o => o.complete && o.user_id == user.id)

/-- `get_tickets_assigned_to`: conference-ticket rows whose `assigned_to`
equals the user's email
(`TicketConference.objects.filter(assigned_to=user.email)`). -/
def get_tickets_assigned_to (user : User) (store : Store) : List TicketConference :=
  store.ticketConferences.filter (fun tc => tc.assigned_to == some user.email)

/-- The queryset `TicketConference.objects.filter(ticket_id=ticket.id)`:
the canonical conference-ticket rows sharing the ticket's identifier. -/
def ticketRows (ticket : Ticket) (store : Store) : List TicketConference :=
  store.ticketConferences.filter (fun tc => tc.ticket.id == ticket.id)

/-- `is_ticket_assigned_to_someone_else(ticket, user)`: looks up the
`TicketConference` rows sharing the ticket's id; no row means not claimed,
more than one row raises `RuntimeError`, a single row is inspected for
ownership and reassignment. -/
def is_ticket_assigned_to_someone_else (ticket : Ticket) (user : User) (store : Store) :
    Except String Bool :=
  match ticketRows ticket store with
  | [] => Except.ok false
  | [tkt] =>
    if tkt.ticket.user_id ≠ user.id then Except.ok true
    else if pyFalsyAssigned tkt.assigned_to then Except.ok false
    else if tkt.assigned_to == some user.email then Except.ok false
    else Except.ok true
  | _ => Except.error "You got more than one ticket from a ticket_id."

/-- Python's `tkt.fare.code.startswith('T')`: the needle is the single
character `'T'`, so this is a first-character test. -/
def startsWithT (s : String) : Bool :=
  match s.data with
  | [] => false
  | c :: _ => c = 'T'

/-- The scan in `has_ticket`: walk the collected tickets, and on the first
one whose fare code starts with `'T'` and that is not assigned to someone
else, return `True`; a raised `RuntimeError` propagates. -/
def hasTicketScan (ts : List Ticket) (user : User) (store : Store) : Except String Bool :=
  match ts with
  | [] => Except.ok false
  | t :: rest =>
    if startsWithT t.fare.code then
      match is_ticket_assigned_to_someone_else t user store with
      | Except.error e => Except.error e
      | Except.ok true => hasTicketScan rest user store
      | Except.ok false => Except.ok true
    else hasTicketScan rest user store

/-- `has_ticket(user)`: directly reassigned tickets first, then the user's
own tickets plus tickets from order items of completed orders, scanned for
a usable conference (`'T'`-fare) ticket. -/
def has_ticket (user : User) (store : Store) : Except String Bool :=
  if !(get_tickets_assigned_to user store).isEmpty then Except.ok true
  else
    let user_tickets := store.tickets.filter (fun t => t.user_id == user.id)
    let orders := get_orders_from user store
    let user_tickets :=
      if !orders.isEmpty then
        user_tickets ++ orders.flatMap (fun o => o.items.filterMap (fun i => i.ticket))
      else user_tickets
    hasTicketScan user_tickets user store

/-- The combined ticket list of `has_ticket`'s step 2: tickets owned
outright plus tickets referenced by line items of completed orders. -/
def combinedTickets (user : User) (store : Store) : List Ticket :=
  store.tickets.filter (fun t => t.user_id == user.id) ++
    (get_orders_from user store).flatMap (fun o => o.items.filterMap (fun i => i.ticket))

/-- `have_tickets(talk)`: per-speaker `has_ticket` results in speaker order;
the `try/except` prints a traceback and re-raises, so any failure
propagates unchanged. -/
def have_tickets (talk : Talk) (store : Store) : Except String (List Bool) :=
  haveTicketsScan (get_all_speakers talk) store
where
  haveTicketsScan : List Speaker → Store → Except String (List Bool)
    | [], _ => Except.ok []
    | sp :: rest, s =>
      match has_ticket sp.user s with
      | Except.error e => Except.error e
      | Except.ok b =>
        match haveTicketsScan rest s with
        | Except.error e => Except.error e
        | Except.ok bs => Except.ok (b :: bs)

/-- Python's `str.isspace` set for the characters `strip()` removes. -/
def pyIsSpace (c : Char) : Bool :=
  c = ' ' || c = '\t' || c = '\n' || c = '\r' || c = '\x0b' || c = '\x0c'

/-- Python's `str.strip()` on a character list: drop whitespace from both
ends. -/
def pyStrip (s : List Char) : List Char :=
  ((s.dropWhile pyIsSpace).reverse.dropWhile pyIsSpace).reverse

/-- Python's `str.replace("  ", " ")`: one left-to-right pass replacing
non-overlapping double spaces, without rescanning the replacement. -/
def replaceDoubleSpace : List Char → List Char
  | [] => []
  | [c] => [c]
  | c1 :: c2 :: rest =>
    if c1 = ' ' ∧ c2 = ' ' then ' ' :: replaceDoubleSpace rest
    else c1 :: replaceDoubleSpace (c2 :: rest)

/-- `clean_title(title)`: strip, early return when empty, strip again,
single double-space replacement pass, then strip one symmetric pair of
double quotes (`title[1:-1]`). -/
def clean_title (title : String) : String :=
  let t := pyStrip title.data
  if t = [] then String.mk t
  else
    let t := pyStrip t
    let t := replaceDoubleSpace t
    let t :=
      if t.head? = some '"' ∧ t.getLast? = some '"' then (t.drop 1).dropLast
      else t
    String.mk t

/-- The spec's description of `cleanTitle`: trim surrounding whitespace,
apply a single double-space collapse pass, and strip one symmetric pair of
surrounding double quotes.  Stated from the spec's words, to be compared
with `clean_title`. -/
def cleanTitleSpec (title : String) : String :=
  let t := pyStrip title.data
  let t := replaceDoubleSpace t
  let t :=
    if t.head? = some '"' ∧ t.getLast? = some '"' then (t.drop 1).dropLast
    else t
  String.mk t

/-- Code-point lexicographic comparison of character lists; Python compares
unicode strings this way in `sorted`. -/
def listCharLe : List Char → List Char → Bool
  | [], _ => true
  | _ :: _, [] => false
  | a :: as, b :: bs =>
    if a < b then true
    else if b < a then false
    else listCharLe as bs

/-- Lexicographic order on strings by code points. -/
def strLe (a b : String) : Prop :=
  listCharLe a.data b.data = true

instance : DecidableRel strLe :=
  fun a b => inferInstanceAs (Decidable (listCharLe a.data b.data = true))

/-- The company names contributed to `speaker_companies`: one per speaker
of `talk.speakers` whose user has a (truthy) attendee profile.  Note the
comprehension filters on the profile, not on the company being non-empty. -/
def companiesOf (t : Talk) : List String :=
  t.speakers.filterMap (fun sp => sp.user.attendeeprofile.map (fun p => p.company))

/-- `speaker_companies(talk)`: Python's `sorted(set(...))` is modelled as an
insertion sort of the deduplicated company list, then comma-joined. -/
def speaker_companies (t : Talk) : String :=
  String.intercalate ", " (List.insertionSort strLe (companiesOf t).dedup)

/-- UTF-8 encoding of one character, as `unicode.encode('utf-8')` does. -/
def utf8EncodeChar (c : Char) : List Nat :=
  let n := c.toNat
  if n < 0x80 then [n]
  else if n < 0x800 then [0xC0 + n / 64, 0x80 + n % 64]
  else if n < 0x10000 then [0xE0 + n / 4096, 0x80 + (n / 64) % 64, 0x80 + n % 64]
  else [0xF0 + n / 262144, 0x80 + (n / 4096) % 64, 0x80 + (n / 64) % 64, 0x80 + n % 64]

/-- UTF-8 byte sequence of a string. -/
def utf8Bytes (s : String) : List Nat :=
  s.data.flatMap utf8EncodeChar

/-- One step of Python 2 `str.title()` on bytes: ASCII letters after a
non-cased byte are uppercased, cased letters after a cased byte are
lowercased, everything else resets the cased flag. -/
def pyBytesTitleAux : Bool → List Nat → List Nat
  | _, [] => []
  | prevCased, b :: rest =>
    if 97 ≤ b ∧ b ≤ 122 then
      (if prevCased then b else b - 32) :: pyBytesTitleAux true rest
    else if 65 ≤ b ∧ b ≤ 90 then
      (if prevCased then b + 32 else b) :: pyBytesTitleAux true rest
    else b :: pyBytesTitleAux false rest

/-- Python 2 `str.title()` on a byte sequence. -/
def pyBytesTitle (bs : List Nat) : List Nat :=
  pyBytesTitleAux false bs

/-- The sort key of `Command.handle`:
`clean_title(talk.title).encode('utf-8').title()`. -/
def sortKey (t : Talk) : List Nat :=
  pyBytesTitle (utf8Bytes (clean_title t.title))

/-- Lexicographic (byte-wise, unsigned) comparison of byte sequences, as
Python 2 compares `str` values. -/
def bytesLe : List Nat → List Nat → Bool
  | [], _ => true
  | _ :: _, [] => false
  | a :: as, b :: bs =>
    if a < b then true
    else if b < a then false
    else bytesLe as bs

/-- Sort order on talks used by `session_talks.sort(key=...)`. -/
def talkKeyLe (a b : Talk) : Prop :=
  bytesLe (sortKey a) (sortKey b) = true

instance : DecidableRel talkKeyLe :=
  fun a b => inferInstanceAs (Decidable (bytesLe (sortKey a) (sortKey b) = true))

/-- The in-place sort of a bucket; Python's stable ascending sort by key is
modelled as an insertion sort under `talkKeyLe`. -/
def sortTalks (ts : List Talk) : List Talk :=
  List.insertionSort talkKeyLe ts

/-- `OrderedDict` assignment `od[k] = v`: replace in place when the key
exists, append otherwise. -/
def odInsert (od : List (String × List Talk)) (k : String) (v : List Talk) :
    List (String × List Talk) :=
  match od with
  | [] => [(k, v)]
  | p :: rest => if p.1 = k then (k, v) :: rest else p :: odInsert rest k v

/-- `Talk.objects.filter(conference=..., status=..., admin_type=...)`. -/
def talksByAdmin (store : Store) (conf status adm : String) : List Talk :=
  store.talks.filter
    (fun t => t.conference == conf && t.status == status && t.admin_type == adm)

/-- `Talk.objects.filter(conference=..., status=..., type=..., admin_type='')`. -/
def talksByType (store : Store) (conf status ty : String) : List Talk :=
  store.talks.filter
    (fun t => t.conference == conf && t.status == status && t.type == ty &&
      t.admin_type == "")

/-- The fixed `type_groups` mapping of `Command.handle`. -/
def type_groups : List (String × List String) :=
  [("talk", ["t_30", "t_45", "t_60"]),
   ("interactive", ["i_60"]),
   ("training", ["r_180"]),
   ("panel", ["p_60", "p_90"]),
   ("poster", ["p_180"]),
   ("helpdesk", ["h_180"])]

/-- The `talks` ordered dict of `Command.handle` after both grouping loops:
one bucket per administrative type (keyed by its display name), then one
bucket per fixed category, keyed by the category name, holding the
empty-admin-type talks of the category's presentation types.  `adminTypes`
is the `TALK_ADMIN_TYPE` enumeration of `(code, display name)` pairs, which
lives in `conference.models` outside this file's source. -/
def buildTalksGroups (adminTypes : List (String × String)) (store : Store)
    (conf status : String) : List (String × List Talk) :=
  let primary := adminTypes.foldl
    (fun od p => odInsert od p.2 (talksByAdmin store conf status p.1)) []
  type_groups.foldl
    (fun od g => odInsert od g.1 (g.2.flatMap (talksByType store conf status))) primary

/-- The bucket structure of the final `sessions` dict: empty buckets are
skipped and each surviving bucket is sorted by the title-case key. -/
def outputBuckets (adminTypes : List (String × String)) (store : Store)
    (conf status : String) : List (String × List Talk) :=
  (buildTalksGroups adminTypes store conf status).filterMap
    (fun p => if p.2.isEmpty then none else some (p.1, sortTalks p.2))

/-- `speaker_listing(talk)`: `"first last"` per speaker, comma-joined. -/
def speaker_listing (t : Talk) : String :=
  String.intercalate ", "
    ((get_all_speakers t).map (fun sp => sp.user.first_name ++ " " ++ sp.user.last_name))

/-- `speaker_emails(talk)`: emails comma-joined. -/
def speaker_emails (t : Talk) : String :=
  String.intercalate ", " ((get_all_speakers t).map (fun sp => sp.user.email))

/-- The handles consumed by `speaker_twitters`: dereferencing
`attendeeprofile.p3_profile` raises an attribute error when the profile is
missing, which propagates out of the join. -/
def twitterHandles : List Speaker → Except String (List String)
  | [] => Except.ok []
  | sp :: rest =>
    match sp.user.attendeeprofile with
    | none => Except.error "AttributeError: attendeeprofile is None"
    | some p =>
      match twitterHandles rest with
      | Except.error e => Except.error e
      | Except.ok hs => Except.ok (("@" ++ p.p3_profile.twitter) :: hs)

/-- `speaker_twitters(talk)`: `"@handle"` per speaker, comma-joined. -/
def speaker_twitters (t : Talk) : Except String String :=
  match twitterHandles (get_all_speakers t) with
  | Except.error e => Except.error e
  | Except.ok hs => Except.ok (String.intercalate ", " hs)

/-- The module-level global `VERBOSE` (line 17 of the source).  The
assignment `VERBOSE = True` inside `Command.handle` binds a function-local
name under Python scoping rules and never changes this value. -/
def VERBOSE : Bool := false

/-- `talk_track_title(talk)`: track titles of the talk's event, comma-joined;
empty when unscheduled. -/
def talk_track_title (t : Talk) : String :=
  match t.event with
  | none => ""
  | some e => String.intercalate ", " (e.tracks.map (fun tr => tr.title))

/-- `talk_schedule(talk)`: the schedule string together with the warnings it
prints.  The unscheduled-talk warning is emitted only when the module-level
`VERBOSE` is true. -/
def talk_schedule (t : Talk) : String × List String :=
  match t.event with
  | none => ("", if VERBOSE then ["ERROR: Talk is not scheduled."] else [])
  | some e => (e.time_start ++ ", " ++ e.time_end, [])

/-- `talk_votes(talk)`: one `(user_id, vote)` entry per `VotoTalk` row of the
talk, unfiltered and unaggregated. -/
def talk_votes (t : Talk) (store : Store) : List (Nat × Int) :=
  (store.votes.filter (fun v => v.talk_id == t.id)).map (fun v => (v.user_id, v.vote))

/-- The per-talk record assembled in `Command.handle`'s inner loop. -/
structure TalkRecord where
  id : Nat
  admin_type : String
  type : String
  duration : Nat
  level : String
  track_title : String
  timerange : String
  tags : List String
  url : String
  tag_categories : List String
  sub_community : String
  title : String
  sub_title : String
  status : String
  language : String
  have_tickets : List Bool
  abstract_long : List String
  abstract_short : String
  abstract_extra : String
  speakers : String
  companies : String
  emails : String
  twitters : String
  user_votes : Option (List (Nat × Int))
deriving DecidableEq

/-- The options of the command: `--verbose`, `--talk_status`, `--votes`. -/
structure CmdOptions where
  verbose : Bool
  talk_status : String
  votes : Bool
deriving DecidableEq

/-- One record of the `sessions` dict; `have_tickets` and the twitter join
can raise, everything else is a pure field read. -/
def buildRecord (conf : String) (votesFlag : Bool) (store : Store) (t : Talk) :
    Except String TalkRecord := do
  let ht ← have_tickets t store
  let tw ← speaker_twitters t
  Except.ok
    { id := t.id
      admin_type := t.admin_type_display
      type := t.type_display
      duration := t.duration
      level := t.level_display
      track_title := talk_track_title t
      timerange := (talk_schedule t).1
      tags := t.tags.map (fun tg => tg.name)
      url := "https://" ++ conf ++ ".europython.eu/" ++ t.absolute_url
      tag_categories := t.tags.map (fun tg => tg.category)
      sub_community := t.sub_community
      title := clean_title t.title
      sub_title := clean_title t.sub_title
      status := t.status
      language := t.language_display
      have_tickets := ht
      abstract_long := t.abstracts
      abstract_short := t.abstract_short
      abstract_extra := t.abstract_extra
      speakers := speaker_listing t
      companies := speaker_companies t
      emails := speaker_emails t
      twitters := tw
      user_votes := if votesFlag then some (talk_votes t store) else none }

/-- One bucket's records in order, together with the warnings printed while
building them. -/
def buildBucketRecords (conf : String) (votesFlag : Bool) (store : Store) :
    List Talk → Except String (List (Nat × TalkRecord) × List String)
  | [] => Except.ok ([], [])
  | t :: ts =>
    match buildRecord conf votesFlag store t with
    | Except.error e => Except.error e
    | Except.ok r =>
      match buildBucketRecords conf votesFlag store ts with
      | Except.error e => Except.error e
      | Except.ok (rs, ws) => Except.ok ((t.id, r) :: rs, (talk_schedule t).2 ++ ws)

/-- The bucket loop of `Command.handle`: records per bucket in order, with
the warnings printed along the way. -/
def handleBuckets (conf : String) (votesFlag : Bool) (store : Store) :
    List (String × List Talk) →
      Except String (List (String × List (Nat × TalkRecord)) × List String)
  | [] => Except.ok ([], [])
  | (name, ts) :: rest =>
    match buildBucketRecords conf votesFlag store ts with
    | Except.error e => Except.error e
    | Except.ok (recs, ws) =>
      match handleBuckets conf votesFlag store rest with
      | Except.error e => Except.error e
      | Except.ok (bs, ws2) => Except.ok ((name, recs) :: bs, ws ++ ws2)

/-- The full output of `Command.handle`: the `sessions` structure that is
serialized to standard output, paired with every warning printed on the
way.  The source's `if options['verbose']: VERBOSE = True` binds a
function-local `VERBOSE` under Python scoping, so it is dead code and has no
counterpart here; `opts.verbose` is consequently never read. -/
def handleOutput (adminTypes : List (String × String)) (store : Store)
    (conf : String) (opts : CmdOptions) :
    Except String (List (String × List (Nat × TalkRecord)) × List String) :=
  handleBuckets conf opts.votes store (outputBuckets adminTypes store conf opts.talk_status)

/-! ## Concrete fixtures used by the witness theorems -/

/-- A concrete user. -/
def fxUser : User :=
  { id := 1, email := "ada@example.org", first_name := "Ada", last_name := "L",
    attendeeprofile := none }

/-- A conference ticket owned by `fxUser`. -/
def fxTicket : Ticket :=
  { id := 10, user_id := 1, fare := { code := "TRSP" } }

/-- A conference ticket owned by a different user (id 2). -/
def fxTicket2 : Ticket :=
  { id := 11, user_id := 2, fare := { code := "TRSP" } }

/-- A canonical row for `fxTicket2`, unassigned. -/
def fxTC : TicketConference :=
  { ticket := fxTicket2, assigned_to := none }

/-- Store with a single canonical row for `fxTicket2`. -/
def fxStoreC2 : Store :=
  { ticketConferences := [fxTC], tickets := [], orders := [], talks := [], votes := [] }

/-! ## C2: the single-row eligibility case analysis -/

/-- C2: `is_ticket_assigned_to_someone_else` — with zero canonical rows the
ticket is not claimed; with exactly one canonical row it is claimed when the
owning user differs from the input user, not claimed when the row has no
reassignment target or the target is the user's own email, and claimed
otherwise. -/
theorem is_ticket_assigned_spec (ticket : Ticket) (user : User) (store : Store) :
    (ticketRows ticket store = [] →
      is_ticket_assigned_to_someone_else ticket user store = Except.ok false)
    ∧ (∀ tc, ticketRows ticket store = [tc] →
        (tc.ticket.user_id ≠ user.id →
          is_ticket_assigned_to_someone_else ticket user store = Except.ok true)
        ∧ (tc.ticket.user_id = user.id → pyFalsyAssigned tc.assigned_to = true →
          is_ticket_assigned_to_someone_else ticket user store = Except.ok false)
        ∧ (tc.ticket.user_id = user.id → pyFalsyAssigned tc.assigned_to = false →
            tc.assigned_to = some user.email →
          is_ticket_assigned_to_someone_else ticket user store = Except.ok false)
        ∧ (tc.ticket.user_id = user.id → pyFalsyAssigned tc.assigned_to = false →
            tc.assigned_to ≠ some user.email →
          is_ticket_assigned_to_someone_else ticket user store = Except.ok true)) := by
  constructor
  · intro h
    simp [is_ticket_assigned_to_someone_else, h]
  · intro tc h
    refine ⟨?_, ?_, ?_, ?_⟩
    · intro h1
      simp [is_ticket_assigned_to_someone_else, h, h1]
    · intro h1 h2
      simp [is_ticket_assigned_to_someone_else, h, h1, h2]
    · intro h1 h2 h3
      simp [is_ticket_assigned_to_someone_else, h, h1, h2, h3]
    · intro h1 h2 h3
      simp [is_ticket_assigned_to_someone_else, h, h1, h2, h3]

/-- Witness for C2: a store with exactly one canonical row owned by another
user; the resolver reports the ticket as claimed by someone else. -/
theorem is_ticket_assigned_spec_witness :
    ticketRows fxTicket2 fxStoreC2 = [fxTC] ∧ fxTC.ticket.user_id ≠ fxUser.id ∧
      is_ticket_assigned_to_someone_else fxTicket2 fxUser fxStoreC2 = Except.ok true :=
  ⟨by decide, by decide,
    ((is_ticket_assigned_spec fxTicket2 fxUser fxStoreC2).2 fxTC (by decide)).1 (by decide)⟩

/-! ## C3: more than one canonical row is a fatal integrity error -/

/-- C3: when the ticket's identifier resolves to more than one canonical
row, the resolver raises `RuntimeError` instead of returning a boolean. -/
theorem resolver_multirow_raises (ticket : Ticket) (user : User) (store : Store)
    (h : 2 ≤ (ticketRows ticket store).length) :
    is_ticket_assigned_to_someone_else ticket user store =
      Except.error "You got more than one ticket from a ticket_id." := by
  match hrows : ticketRows ticket store with
  | [] => rw [hrows] at h; simp at h
  | [tc] => rw [hrows] at h; simp at h
  | tc1 :: tc2 :: rest => simp [is_ticket_assigned_to_someone_else, hrows]

/-- Store with two canonical rows for `fxTicket`. -/
def fxStoreC3 : Store :=
  { ticketConferences :=
      [{ ticket := fxTicket, assigned_to := none },
       { ticket := fxTicket, assigned_to := some "eve@example.org" }],
    tickets := [fxTicket], orders := [], talks := [], votes := [] }

/-- Witness for C3: two canonical rows for the same ticket id make the
resolver raise. -/
theorem resolver_multirow_raises_witness :
    2 ≤ (ticketRows fxTicket fxStoreC3).length ∧
      is_ticket_assigned_to_someone_else fxTicket fxUser fxStoreC3 =
        Except.error "You got more than one ticket from a ticket_id." :=
  ⟨by decide, resolver_multirow_raises fxTicket fxUser fxStoreC3 (by decide)⟩


/-! ## C1: hasUsableTicket -/

/-- When every `'T'`-fare ticket's eligibility check succeeds, the scan of
`has_ticket` finds `True` exactly when some ticket in the list is a
`'T'`-fare ticket not claimed by someone else. -/
theorem hasTicketScan_ok_true_iff (ts : List Ticket) (user : User) (store : Store)
    (h : ∀ t ∈ ts, startsWithT t.fare.code = true →
      (is_ticket_assigned_to_someone_else t user store).isOk = true) :
    (hasTicketScan ts user store = Except.ok true ↔
      ∃ t ∈ ts, startsWithT t.fare.code = true ∧
        is_ticket_assigned_to_someone_else t user store = Except.ok false) := by
  induction ts with
  | nil => simp [hasTicketScan]
  | cons t rest ih =>
    have hrest : ∀ t' ∈ rest, startsWithT t'.fare.code = true →
        (is_ticket_assigned_to_someone_else t' user store).isOk = true :=
      fun t' ht' => h t' (List.mem_cons_of_mem _ ht')
    by_cases hs : startsWithT t.fare.code = true
    · cases hc : is_ticket_assigned_to_someone_else t user store with
      | error e =>
        have := h t (List.mem_cons_self _ _) hs
        rw [hc] at this
        simp [Except.isOk, Except.toBool] at this
      | ok b =>
        cases b with
        | true =>
          have hred : hasTicketScan (t :: rest) user store = hasTicketScan rest user store := by
            simp [hasTicketScan, hs, hc]
          rw [hred, ih hrest]
          constructor
          · rintro ⟨t', ht', hp⟩
            exact ⟨t', List.mem_cons_of_mem _ ht', hp⟩
          · rintro ⟨t', ht', hst, hfalse⟩
            rcases List.mem_cons.mp ht' with rfl | hmem
            · rw [hc] at hfalse; cases hfalse
            · exact ⟨t', hmem, hst, hfalse⟩
        | false =>
          have hred : hasTicketScan (t :: rest) user store = Except.ok true := by
            simp [hasTicketScan, hs, hc]
          rw [hred]
          constructor
          · intro _
            exact ⟨t, List.mem_cons_self _ _, hs, hc⟩
          · intro _; rfl
    · have hred : hasTicketScan (t :: rest) user store = hasTicketScan rest user store := by
        simp [hasTicketScan, hs]
      rw [hred, ih hrest]
      constructor
      · rintro ⟨t', ht', hp⟩
        exact ⟨t', List.mem_cons_of_mem _ ht', hp⟩
      · rintro ⟨t', ht', hst, hfalse⟩
        rcases List.mem_cons.mp ht' with rfl | hmem
        · exact absurd hst hs
        · exact ⟨t', hmem, hst, hfalse⟩

/-- Under the same no-error hypothesis the scan itself cannot error. -/
theorem hasTicketScan_isOk (ts : List Ticket) (user : User) (store : Store)
    (h : ∀ t ∈ ts, startsWithT t.fare.code = true →
      (is_ticket_assigned_to_someone_else t user store).isOk = true) :
    (hasTicketScan ts user store).isOk = true := by
  induction ts with
  | nil => simp [hasTicketScan, Except.isOk, Except.toBool]
  | cons t rest ih =>
    have hrest : ∀ t' ∈ rest, startsWithT t'.fare.code = true →
        (is_ticket_assigned_to_someone_else t' user store).isOk = true :=
      fun t' ht' => h t' (List.mem_cons_of_mem _ ht')
    by_cases hs : startsWithT t.fare.code = true
    · cases hc : is_ticket_assigned_to_someone_else t user store with
      | error e =>
        have := h t (List.mem_cons_self _ _) hs
        rw [hc] at this
        simp [Except.isOk, Except.toBool] at this
      | ok b =>
        cases b with
        | true =>
          have hred : hasTicketScan (t :: rest) user store = hasTicketScan rest user store := by
            simp [hasTicketScan, hs, hc]
          rw [hred]
          exact ih hrest
        | false =>
          have hred : hasTicketScan (t :: rest) user store = Except.ok true := by
            simp [hasTicketScan, hs, hc]
          rw [hred]
          rfl
    · have hred : hasTicketScan (t :: rest) user store = hasTicketScan rest user store := by
        simp [hasTicketScan, hs]
      rw [hred]
      exact ih hrest

/-- With no directly-assigned ticket, `has_ticket` is the scan of the
combined owned-plus-ordered ticket list. -/
theorem has_ticket_eq_scan (user : User) (store : Store)
    (h : (get_tickets_assigned_to user store).isEmpty = true) :
    has_ticket user store = hasTicketScan (combinedTickets user store) user store := by
  unfold has_ticket combinedTickets
  rw [h]
  simp only [Bool.not_true, Bool.false_eq_true, if_false]
  by_cases ho : (get_orders_from user store).isEmpty
  · rw [List.isEmpty_iff] at ho
    simp [ho]
  · simp [ho]

/-- C1: `has_ticket` — any ticket directly reassigned to the user's email
yields `True` immediately; otherwise, provided no eligibility check raises,
the result is `True` exactly when the combined list of owned and
order-derived tickets contains a `'T'`-fare ticket not claimed by someone
else, and `False` exactly when it does not. -/
theorem has_ticket_spec (user : User) (store : Store) :
    ((get_tickets_assigned_to user store).isEmpty = false →
      has_ticket user store = Except.ok true)
    ∧ ((get_tickets_assigned_to user store).isEmpty = true →
        (∀ t ∈ combinedTickets user store, startsWithT t.fare.code = true →
          (is_ticket_assigned_to_someone_else t user store).isOk = true) →
        (has_ticket user store = Except.ok true ↔
          ∃ t ∈ combinedTickets user store, startsWithT t.fare.code = true ∧
            is_ticket_assigned_to_someone_else t user store = Except.ok false)
        ∧ (has_ticket user store = Except.ok false ↔
          ¬ ∃ t ∈ combinedTickets user store, startsWithT t.fare.code = true ∧
            is_ticket_assigned_to_someone_else t user store = Except.ok false)) := by
  constructor
  · intro h
    unfold has_ticket
    rw [h]
    rfl
  · intro h hok
    rw [has_ticket_eq_scan user store h]
    have hiff := hasTicketScan_ok_true_iff _ user store hok
    refine ⟨hiff, ?_⟩
    have hisok := hasTicketScan_isOk _ user store hok
    cases hscan : hasTicketScan (combinedTickets user store) user store with
    | error e => rw [hscan] at hisok; simp [Except.isOk, Except.toBool] at hisok
    | ok b =>
      rw [hscan] at hiff
      cases b with
      | true =>
        constructor
        · intro heq; simp at heq
        · intro hn; exact absurd (hiff.mp rfl) hn
      | false =>
        constructor
        · intro _ hex
          have := hiff.mpr hex
          simp at this
        · intro _; rfl

/-- Store for the C1 witness: the user owns a `'T'`-fare ticket with a
single canonical row assigned to nobody. -/
def fxStoreC1 : Store :=
  { ticketConferences := [{ ticket := fxTicket, assigned_to := none }],
    tickets := [fxTicket], orders := [], talks := [], votes := [] }

/-- Witness for C1: no directly-assigned ticket, every check succeeds, and
the owned `'T'`-fare ticket is usable, so `has_ticket` returns `True`. -/
theorem has_ticket_spec_witness :
    (get_tickets_assigned_to fxUser fxStoreC1).isEmpty = true ∧
      (∀ t ∈ combinedTickets fxUser fxStoreC1, startsWithT t.fare.code = true →
        (is_ticket_assigned_to_someone_else t fxUser fxStoreC1).isOk = true) ∧
      has_ticket fxUser fxStoreC1 = Except.ok true :=
  ⟨by decide, by decide,
    (((has_ticket_spec fxUser fxStoreC1).2 (by decide) (by decide)).1).mpr
      ⟨fxTicket, by decide, by decide, by decide⟩⟩

/-! ## C4: have_tickets is the ordered per-speaker list -/

/-- Successful scans of `have_tickets` produce one boolean per speaker, in
order, each being that speaker's `has_ticket` result. -/
theorem haveTicketsScan_spec (sps : List Speaker) (store : Store) (l : List Bool)
    (h : have_tickets.haveTicketsScan sps store = Except.ok l) :
    l.length = sps.length ∧
      ∀ (i : Nat) (sp : Speaker), sps[i]? = some sp →
        ∃ b, l[i]? = some b ∧ has_ticket sp.user store = Except.ok b := by
  induction sps generalizing l with
  | nil =>
    simp only [have_tickets.haveTicketsScan] at h
    cases h
    simp
  | cons sp rest ih =>
    simp only [have_tickets.haveTicketsScan] at h
    cases hh : has_ticket sp.user store with
    | error e => rw [hh] at h; cases h
    | ok b =>
      rw [hh] at h
      cases hr : have_tickets.haveTicketsScan rest store with
      | error e => rw [hr] at h; cases h
      | ok bs =>
        rw [hr] at h
        cases h
        obtain ⟨hlen, hidx⟩ := ih bs hr
        refine ⟨by simp [hlen], ?_⟩
        intro i sp' hsp
        cases i with
        | zero =>
          simp only [List.getElem?_cons_zero, Option.some.injEq] at hsp
          exact ⟨b, by simp, hsp ▸ hh⟩
        | succ n =>
          simp only [List.getElem?_cons_succ] at hsp ⊢
          exact hidx n sp' hsp

/-- C4: `have_tickets` yields an ordered list of booleans, one per speaker
(including co-speakers), the i-th being `has_ticket` of the i-th speaker,
with no deduplication or aggregation. -/
theorem have_tickets_spec (talk : Talk) (store : Store) (l : List Bool)
    (h : have_tickets talk store = Except.ok l) :
    l.length = (get_all_speakers talk).length ∧
      ∀ (i : Nat) (sp : Speaker), (get_all_speakers talk)[i]? = some sp →
        ∃ b, l[i]? = some b ∧ has_ticket sp.user store = Except.ok b :=
  haveTicketsScan_spec (get_all_speakers talk) store l h

/-- A second user with no tickets at all. -/
def fxUser2 : User :=
  { id := 2, email := "bob@example.org", first_name := "Bob", last_name := "M",
    attendeeprofile := none }

/-- Talk of the C4 witness: two speakers, the first holding a usable ticket
in `fxStoreC1`, the second holding none. -/
def fxTalkC4 : Talk where
  id := 1
  conference := "ep2018"
  status := "accepted"
  type := "t_45"
  admin_type := ""
  title := "A talk"
  sub_title := ""
  duration := 45
  admin_type_display := ""
  type_display := "Talk"
  level_display := "Beginner"
  language_display := "English"
  tags := []
  abstracts := []
  abstract_short := ""
  abstract_extra := ""
  sub_community := ""
  absolute_url := "talks/a-talk"
  event := none
  speakers := [{ user := fxUser }, { user := fxUser2 }]

/-- Witness for C4: the two-speaker talk yields `[true, false]` in speaker
order, matching the per-index characterisation. -/
theorem have_tickets_spec_witness :
    have_tickets fxTalkC4 fxStoreC1 = Except.ok [true, false] ∧
      ([true, false] : List Bool).length = (get_all_speakers fxTalkC4).length ∧
      ∃ b, (([true, false] : List Bool))[0]? = some b ∧
        has_ticket fxUser fxStoreC1 = Except.ok b :=
  ⟨by decide, (have_tickets_spec fxTalkC4 fxStoreC1 [true, false] (by decide)).1,
    (have_tickets_spec fxTalkC4 fxStoreC1 [true, false] (by decide)).2 0
      { user := fxUser } (by decide)⟩

/-! ## C9: lookup failures propagate out of have_tickets -/

/-- The scan of `have_tickets` succeeds exactly when every speaker's check
succeeds, and an error is always some speaker's own error. -/
theorem haveTicketsScan_err (sps : List Speaker) (store : Store) :
    ((have_tickets.haveTicketsScan sps store).isOk = true ↔
      ∀ sp ∈ sps, (has_ticket sp.user store).isOk = true)
    ∧ ∀ e, have_tickets.haveTicketsScan sps store = Except.error e →
        ∃ sp ∈ sps, has_ticket sp.user store = Except.error e := by
  induction sps with
  | nil =>
    refine ⟨by simp [have_tickets.haveTicketsScan, Except.isOk, Except.toBool], ?_⟩
    intro e he
    simp only [have_tickets.haveTicketsScan] at he
    cases he
  | cons sp rest ih =>
    cases hh : has_ticket sp.user store with
    | error e0 =>
      have hred : have_tickets.haveTicketsScan (sp :: rest) store = Except.error e0 := by
        simp [have_tickets.haveTicketsScan, hh]
      refine ⟨?_, ?_⟩
      · rw [hred]
        simp only [Except.isOk, Except.toBool]
        constructor
        · intro hfalse; cases hfalse
        · intro hall
          have := hall sp (List.mem_cons_self _ _)
          rw [hh] at this
          cases this
      · intro e he
        rw [hred] at he
        cases he
        exact ⟨sp, List.mem_cons_self _ _, hh⟩
    | ok b =>
      cases hr : have_tickets.haveTicketsScan rest store with
      | error e0 =>
        have hred : have_tickets.haveTicketsScan (sp :: rest) store = Except.error e0 := by
          simp [have_tickets.haveTicketsScan, hh, hr]
        obtain ⟨sp', hsp', herr'⟩ := ih.2 e0 hr
        refine ⟨?_, ?_⟩
        · rw [hred]
          simp only [Except.isOk, Except.toBool]
          constructor
          · intro hfalse; cases hfalse
          · intro hall
            have := hall sp' (List.mem_cons_of_mem _ hsp')
            rw [herr'] at this
            cases this
        · intro e he
          rw [hred] at he
          cases he
          exact ⟨sp', List.mem_cons_of_mem _ hsp', herr'⟩
      | ok bs =>
        have hred : have_tickets.haveTicketsScan (sp :: rest) store = Except.ok (b :: bs) := by
          simp [have_tickets.haveTicketsScan, hh, hr]
        refine ⟨?_, ?_⟩
        · rw [hred]
          constructor
          · intro _ sp' hsp'
            rcases List.mem_cons.mp hsp' with rfl | hmem
            · rw [hh]; rfl
            · exact ih.1.mp (by rw [hr]; rfl) sp' hmem
          · intro _
            rfl
        · intro e he
          rw [hred] at he
          cases he
    
/-- C9: `have_tickets` never swallows a failing per-speaker check and never
returns a partial list: it succeeds exactly when every speaker's check
does, and otherwise re-raises the very error some speaker's check raised. -/
theorem have_tickets_error_spec (talk : Talk) (store : Store) :
    ((have_tickets talk store).isOk = true ↔
      ∀ sp ∈ get_all_speakers talk, (has_ticket sp.user store).isOk = true)
    ∧ ∀ e, have_tickets talk store = Except.error e →
        ∃ sp ∈ get_all_speakers talk, has_ticket sp.user store = Except.error e :=
  haveTicketsScan_err (get_all_speakers talk) store

/-- Talk of the C9 witness: its only speaker's eligibility check hits the
duplicated canonical rows of `fxStoreC3`. -/
def fxTalkC9 : Talk :=
  { fxTalkC4 with id := 2, title := "B talk", speakers := [{ user := fxUser }] }

/-- Witness for C9: the duplicated-row error surfaces unchanged from
`have_tickets`, attributed to the failing speaker. -/
theorem have_tickets_error_spec_witness :
    have_tickets fxTalkC9 fxStoreC3 =
      Except.error "You got more than one ticket from a ticket_id." ∧
      ∃ sp ∈ get_all_speakers fxTalkC9, has_ticket sp.user fxStoreC3 =
        Except.error "You got more than one ticket from a ticket_id." :=
  ⟨by decide, (have_tickets_error_spec fxTalkC9 fxStoreC3).2 _ (by decide)⟩

/-! ## C6: clean_title equals the spec's one-pass description -/

/-- `dropWhile` is idempotent. -/
theorem dropWhile_dropWhile {α : Type} (p : α → Bool) (l : List α) :
    List.dropWhile p (List.dropWhile p l) = List.dropWhile p l := by
  induction l with
  | nil => rfl
  | cons a t ih =>
    by_cases h : p a <;> simp [List.dropWhile, h, ih]

/-- The head surviving a `dropWhile` refutes the predicate. -/
theorem head_dropWhile_false {α : Type} (p : α → Bool) (l : List α) (a : α)
    (h : (List.dropWhile p l).head? = some a) : p a = false := by
  induction l with
  | nil => cases h
  | cons b t ih =>
    by_cases hb : p b
    · rw [List.dropWhile_cons_of_pos hb] at h
      exact ih h
    · rw [List.dropWhile_cons_of_neg hb] at h
      cases h
      simpa using hb

/-- A list whose head refutes the predicate is untouched by `dropWhile`. -/
theorem dropWhile_eq_self {α : Type} (p : α → Bool) (l : List α)
    (h : ∀ a, l.head? = some a → p a = false) : List.dropWhile p l = l := by
  cases l with
  | nil => rfl
  | cons a t =>
    have := h a rfl
    simp [List.dropWhile, this]

/-- `dropWhile` removes an initial segment. -/
theorem exists_append_dropWhile {α : Type} (p : α → Bool) (l : List α) :
    ∃ u, u ++ List.dropWhile p l = l := by
  induction l with
  | nil => exact ⟨[], rfl⟩
  | cons a t ih =>
    by_cases ha : p a
    · obtain ⟨u, hu⟩ := ih
      exact ⟨a :: u, by simp [List.dropWhile, ha, hu]⟩
    · exact ⟨[], by simp [List.dropWhile, ha]⟩

/-- Python's two-sided strip is idempotent. -/
theorem pyStrip_idem (s : List Char) : pyStrip (pyStrip s) = pyStrip s := by
  have hA : List.dropWhile pyIsSpace (pyStrip s) = pyStrip s := by
    apply dropWhile_eq_self
    intro a ha
    obtain ⟨w, hw⟩ := exists_append_dropWhile pyIsSpace (s.dropWhile pyIsSpace).reverse
    have hu : pyStrip s ++ w.reverse = s.dropWhile pyIsSpace := by
      have h2 := congrArg List.reverse hw
      rw [List.reverse_append, List.reverse_reverse] at h2
      exact h2
    have hhead : (s.dropWhile pyIsSpace).head? = some a := by
      rw [← hu]
      cases hps : pyStrip s with
      | nil => rw [hps] at ha; cases ha
      | cons x t =>
        rw [hps] at ha
        simp only [List.head?_cons, Option.some.injEq] at ha
        simp [ha]
    exact head_dropWhile_false pyIsSpace s a hhead
  show ((List.dropWhile pyIsSpace (pyStrip s)).reverse.dropWhile pyIsSpace).reverse = pyStrip s
  rw [hA]
  have hrev : (pyStrip s).reverse = List.dropWhile pyIsSpace (s.dropWhile pyIsSpace).reverse := by
    simp [pyStrip]
  rw [hrev, dropWhile_dropWhile]
  rfl

/-- C6: `clean_title` is exactly the spec's pipeline — trim, one
double-space collapse pass, one symmetric quote strip — and satisfies the
spec's two sample equations. -/
theorem clean_title_spec_eq :
    (∀ s : String, clean_title s = cleanTitleSpec s)
    ∧ clean_title "\"Hi  there\"" = "Hi there"
    ∧ clean_title "" = "" := by
  refine ⟨?_, by decide, by decide⟩
  intro s
  by_cases h : pyStrip s.data = []
  · simp [clean_title, cleanTitleSpec, h, replaceDoubleSpace]
  · simp [clean_title, cleanTitleSpec, h, pyStrip_idem]

/-! ## C8: speaker_companies -/

/-- Totality of the code-point order on character lists. -/
theorem listCharLe_total (a b : List Char) :
    listCharLe a b = true ∨ listCharLe b a = true := by
  induction a generalizing b with
  | nil => left; rfl
  | cons x xs ih =>
    cases b with
    | nil => right; rfl
    | cons y ys =>
      rcases lt_trichotomy x y with h | h | h
      · left; simp [listCharLe, h]
      · subst h
        have := ih ys
        simpa [listCharLe, lt_irrefl] using this
      · right; simp [listCharLe, h]

/-- Transitivity of the code-point order on character lists. -/
theorem listCharLe_trans (a b c : List Char) (h1 : listCharLe a b = true)
    (h2 : listCharLe b c = true) : listCharLe a c = true := by
  induction a generalizing b c with
  | nil => rfl
  | cons x xs ih =>
    cases b with
    | nil => simp [listCharLe] at h1
    | cons y ys =>
      cases c with
      | nil => simp [listCharLe] at h2
      | cons z zs =>
        rcases lt_trichotomy x y with hxy | hxy | hxy
        · rcases lt_trichotomy y z with hyz | hyz | hyz
          · simp [listCharLe, lt_trans hxy hyz]
          · subst hyz; simp [listCharLe, hxy]
          · have hn : ¬ y < z := asymm hyz
            simp [listCharLe, hn, hyz] at h2
        · subst hxy
          rcases lt_trichotomy x z with hxz | hxz | hxz
          · simp [listCharLe, hxz]
          · subst hxz
            have h1' : listCharLe xs ys = true := by
              simpa [listCharLe, lt_irrefl] using h1
            have h2' : listCharLe ys zs = true := by
              simpa [listCharLe, lt_irrefl] using h2
            simpa [listCharLe, lt_irrefl] using ih ys zs h1' h2'
          · have hn : ¬ x < z := asymm hxz
            simp [listCharLe, hn, hxz] at h2
        · have hn : ¬ x < y := asymm hxy
          simp [listCharLe, hn, hxy] at h1

instance : IsTotal String strLe :=
  ⟨fun a b => listCharLe_total a.data b.data⟩

instance : IsTrans String strLe :=
  ⟨fun _ _ _ h1 h2 => listCharLe_trans _ _ _ h1 h2⟩

/-- The claim's description of `speakerCompanies`, stated from the spec's
words for comparison: it additionally excludes empty company names. -/
def speakerCompaniesClaimed (t : Talk) : String :=
  String.intercalate ", "
    (List.insertionSort strLe (((companiesOf t).filter (fun c => c ≠ "")).dedup))

/-- C8 amended: `speaker_companies` is the comma-join of a sorted,
duplicate-free list containing exactly the company names (empty ones
included) of the talk's speakers that have an attendee profile. -/
theorem speaker_companies_amended (t : Talk) :
    ∃ l : List String, speaker_companies t = String.intercalate ", " l ∧
      List.Sorted strLe l ∧ l.Nodup ∧
      ∀ s : String, s ∈ l ↔ ∃ sp ∈ t.speakers, ∃ p : AttendeeProfile,
        sp.user.attendeeprofile = some p ∧ p.company = s := by
  refine ⟨List.insertionSort strLe (companiesOf t).dedup, rfl,
    List.sorted_insertionSort strLe _, ?_, ?_⟩
  · exact (List.perm_insertionSort strLe _).nodup_iff.mpr (List.nodup_dedup _)
  · intro s
    rw [(List.perm_insertionSort strLe _).mem_iff, List.mem_dedup]
    simp only [companiesOf, List.mem_filterMap, Option.map_eq_some']

/-- Speaker with a profile whose company is the empty string. -/
def fxSpEmptyCo : Speaker :=
  { user := { fxUser with
      attendeeprofile := some { company := "", p3_profile := { twitter := "ada" } } } }

/-- Speaker with a profile whose company is `"Acme"`. -/
def fxSpAcme : Speaker :=
  { user := { fxUser2 with
      attendeeprofile := some { company := "Acme", p3_profile := { twitter := "bob" } } } }

/-- Talk of the C8 counterexample: one empty and one non-empty company. -/
def fxTalkC8 : Talk :=
  { fxTalkC4 with id := 3, title := "C talk", speakers := [fxSpEmptyCo, fxSpAcme] }

/-- Counterexample to C8 as stated: the code keeps the empty company name,
so the output starts with a dangling comma instead of dropping it. -/
theorem speaker_companies_counterexample :
    speaker_companies fxTalkC8 = ", Acme" ∧
      speakerCompaniesClaimed fxTalkC8 = "Acme" ∧
      speaker_companies fxTalkC8 ≠ speakerCompaniesClaimed fxTalkC8 :=
  ⟨by decide, by decide, by decide⟩

/-! ## C5: grouping exclusivity -/

/-- The admin-type buckets in insertion order: one per `TALK_ADMIN_TYPE`
entry, keyed by display name. -/
def adminItems (adminTypes : List (String × String)) (store : Store)
    (conf status : String) : List (String × List Talk) :=
  adminTypes.map (fun a => (a.2, talksByAdmin store conf status a.1))

/-- The six fixed category buckets in `type_groups` order. -/
def groupItems (store : Store) (conf status : String) : List (String × List Talk) :=
  type_groups.map (fun g => (g.1, g.2.flatMap (talksByType store conf status)))

/-- Assigning a fresh key to an ordered dict appends it. -/
theorem odInsert_fresh (od : List (String × List Talk)) (k : String) (v : List Talk)
    (h : ∀ p ∈ od, p.1 ≠ k) : odInsert od k v = od ++ [(k, v)] := by
  induction od with
  | nil => rfl
  | cons p rest ih =>
    have hp := h p (List.mem_cons_self _ _)
    simp only [odInsert, if_neg hp, List.cons_append, List.cons.injEq, true_and]
    exact ih (fun q hq => h q (List.mem_cons_of_mem _ hq))

/-- Folding admin-type assignments over fresh, pairwise-distinct keys just
appends the admin buckets. -/
theorem foldl_admin_eq (adminTypes : List (String × String)) (store : Store)
    (conf status : String) (od : List (String × List Talk))
    (hnd : (adminTypes.map Prod.snd).Nodup)
    (hfresh : ∀ a ∈ adminTypes, ∀ p ∈ od, p.1 ≠ a.2) :
    adminTypes.foldl (fun acc a => odInsert acc a.2 (talksByAdmin store conf status a.1)) od
      = od ++ adminItems adminTypes store conf status := by
  induction adminTypes generalizing od with
  | nil => simp [adminItems]
  | cons a rest ih =>
    simp only [List.foldl_cons]
    rw [odInsert_fresh od a.2 _ (fun p hp => hfresh a (List.mem_cons_self _ _) p hp)]
    rw [List.map_cons, List.nodup_cons] at hnd
    rw [ih (od ++ [(a.2, talksByAdmin store conf status a.1)]) hnd.2 ?_]
    · simp [adminItems]
    · intro b hb p hp
      rcases List.mem_append.mp hp with hp | hp
      · exact hfresh b (List.mem_cons_of_mem _ hb) p hp
      · rcases List.mem_singleton.mp hp with rfl
        intro hcontra
        apply hnd.1
        rw [show a.2 = b.2 from hcontra]
        exact List.mem_map_of_mem Prod.snd hb

/-- Folding the category assignments over fresh, pairwise-distinct keys just
appends the category buckets. -/
theorem foldl_groups_eq (gl : List (String × List String)) (store : Store)
    (conf status : String) (od : List (String × List Talk))
    (hnd : (gl.map Prod.fst).Nodup)
    (hfresh : ∀ g ∈ gl, ∀ p ∈ od, p.1 ≠ g.1) :
    gl.foldl (fun acc g => odInsert acc g.1 (g.2.flatMap (talksByType store conf status))) od
      = od ++ gl.map (fun g => (g.1, g.2.flatMap (talksByType store conf status))) := by
  induction gl generalizing od with
  | nil => simp
  | cons g rest ih =>
    simp only [List.foldl_cons]
    rw [odInsert_fresh od g.1 _ (fun p hp => hfresh g (List.mem_cons_self _ _) p hp)]
    rw [List.map_cons, List.nodup_cons] at hnd
    rw [ih (od ++ [(g.1, g.2.flatMap (talksByType store conf status))]) hnd.2 ?_]
    · simp
    · intro b hb p hp
      rcases List.mem_append.mp hp with hp | hp
      · exact hfresh b (List.mem_cons_of_mem _ hb) p hp
      · rcases List.mem_singleton.mp hp with rfl
        intro hcontra
        apply hnd.1
        rw [show g.1 = b.1 from hcontra]
        exact List.mem_map_of_mem Prod.fst hb

/-- The fixed category names are pairwise distinct. -/
theorem type_groups_names_nodup : (type_groups.map Prod.fst).Nodup := by decide

/-- No presentation-type code is shared between two distinct categories. -/
theorem type_groups_types_unique :
    ∀ g ∈ type_groups, ∀ g' ∈ type_groups, ∀ ty ∈ g.2, ty ∈ g'.2 → g = g' := by decide

/-- Under well-formed admin types the two grouping passes build the admin
buckets followed by the category buckets. -/
theorem buildTalksGroups_eq (adminTypes : List (String × String)) (store : Store)
    (conf status : String)
    (hndNames : (adminTypes.map Prod.snd).Nodup)
    (hdisj : ∀ a ∈ adminTypes, ∀ g ∈ type_groups, a.2 ≠ g.1) :
    buildTalksGroups adminTypes store conf status =
      adminItems adminTypes store conf status ++ groupItems store conf status := by
  unfold buildTalksGroups
  rw [foldl_admin_eq adminTypes store conf status [] hndNames (by intro a _ p hp; cases hp)]
  rw [foldl_groups_eq type_groups store conf status _ type_groups_names_nodup ?_]
  · simp [groupItems]
  · intro g hg p hp
    simp only [List.nil_append, adminItems, List.mem_map] at hp
    obtain ⟨a, ha, rfl⟩ := hp
    exact hdisj a ha g hg

/-- Membership in an admin-filtered queryset. -/
theorem mem_talksByAdmin {t : Talk} {store : Store} {conf status adm : String} :
    t ∈ talksByAdmin store conf status adm ↔
      t ∈ store.talks ∧ t.conference = conf ∧ t.status = status ∧ t.admin_type = adm := by
  simp [talksByAdmin, List.mem_filter, and_assoc]

/-- Membership in a type-filtered queryset. -/
theorem mem_talksByType {t : Talk} {store : Store} {conf status ty : String} :
    t ∈ talksByType store conf status ty ↔
      t ∈ store.talks ∧ t.conference = conf ∧ t.status = status ∧ t.type = ty ∧
        t.admin_type = "" := by
  simp [talksByType, List.mem_filter, and_assoc]

/-- Sorting a bucket does not change its members. -/
theorem mem_sortTalks {t : Talk} {l : List Talk} : t ∈ sortTalks l ↔ t ∈ l :=
  (List.perm_insertionSort talkKeyLe l).mem_iff

/-- A pair is an output bucket exactly when it is the sorted version of a
non-empty built bucket. -/
theorem mem_outputBuckets {p : String × List Talk} {adminTypes : List (String × String)}
    {store : Store} {conf status : String} :
    p ∈ outputBuckets adminTypes store conf status ↔
      ∃ q ∈ buildTalksGroups adminTypes store conf status,
        q.2 ≠ [] ∧ p = (q.1, sortTalks q.2) := by
  unfold outputBuckets
  rw [List.mem_filterMap]
  constructor
  · rintro ⟨q, hq, hf⟩
    by_cases he : q.2.isEmpty
    · rw [if_pos he] at hf; cases hf
    · rw [if_neg he] at hf
      cases hf
      exact ⟨q, hq, by simpa [List.isEmpty_iff] using he, rfl⟩
  · rintro ⟨q, hq, hne, rfl⟩
    refine ⟨q, hq, ?_⟩
    rw [if_neg (by simpa [List.isEmpty_iff] using hne)]

/-- Dropping empty buckets and sorting keeps a subsequence of the keys. -/
theorem keys_outputBuckets_sublist (adminTypes : List (String × String)) (store : Store)
    (conf status : String) :
    List.Sublist ((outputBuckets adminTypes store conf status).map Prod.fst)
      ((buildTalksGroups adminTypes store conf status).map Prod.fst) := by
  unfold outputBuckets
  generalize buildTalksGroups adminTypes store conf status = l
  induction l with
  | nil => simp
  | cons q rest ih =>
    by_cases he : q.2.isEmpty
    · have hred : List.filterMap
          (fun p => if p.2.isEmpty then none else some (p.1, sortTalks p.2)) (q :: rest) =
          List.filterMap (fun p => if p.2.isEmpty then none else some (p.1, sortTalks p.2)) rest := by
        have he' : q.2 = [] := List.isEmpty_iff.mp he
        simp [List.filterMap_cons, he']
      rw [hred, List.map_cons]
      exact ih.cons q.1
    · have hred : List.filterMap
          (fun p => if p.2.isEmpty then none else some (p.1, sortTalks p.2)) (q :: rest) =
          (q.1, sortTalks q.2) :: List.filterMap
            (fun p => if p.2.isEmpty then none else some (p.1, sortTalks p.2)) rest := by
        have he' : q.2 ≠ [] := by simpa [List.isEmpty_iff] using he
        simp [List.filterMap_cons, he']
      rw [hred, List.map_cons, List.map_cons]
      exact ih.cons₂ q.1

/-- Under well-formed admin types the surviving bucket names are pairwise
distinct, so no name denotes two output buckets. -/
theorem keys_outputBuckets_nodup (adminTypes : List (String × String)) (store : Store)
    (conf status : String)
    (hndNames : (adminTypes.map Prod.snd).Nodup)
    (hdisj : ∀ a ∈ adminTypes, ∀ g ∈ type_groups, a.2 ≠ g.1) :
    ((outputBuckets adminTypes store conf status).map Prod.fst).Nodup := by
  have hkeys : ((buildTalksGroups adminTypes store conf status).map Prod.fst).Nodup := by
    rw [buildTalksGroups_eq adminTypes store conf status hndNames hdisj,
      List.map_append, List.nodup_append]
    refine ⟨?_, ?_, ?_⟩
    · simpa [adminItems, List.map_map, Function.comp] using hndNames
    · simpa [groupItems, List.map_map, Function.comp] using type_groups_names_nodup
    · intro x hx hx'
      simp only [adminItems, List.map_map, List.mem_map, Function.comp] at hx
      simp only [groupItems, List.map_map, List.mem_map, Function.comp] at hx'
      obtain ⟨a, ha, hax⟩ := hx
      obtain ⟨g, hg, hgx⟩ := hx'
      exact hdisj a ha g hg (hax.symm ▸ hgx.symm ▸ rfl)
  exact hkeys.sublist (keys_outputBuckets_sublist adminTypes store conf status)

/-- C5: a talk with empty administrative type and a presentation type in one
of the six fixed categories appears in exactly the matching category bucket
(present there, absent from every other bucket, bucket names unambiguous);
a talk with a non-empty administrative type appears only under its
admin-type's display-name bucket. -/
theorem grouping_exclusive
    (adminTypes : List (String × String)) (store : Store) (conf status : String)
    (t : Talk)
    (hmem : t ∈ store.talks) (hconf : t.conference = conf) (hstat : t.status = status)
    (hcode : ∀ a ∈ adminTypes, a.1 ≠ "")
    (hdisj : ∀ a ∈ adminTypes, ∀ g ∈ type_groups, a.2 ≠ g.1)
    (hndNames : (adminTypes.map Prod.snd).Nodup) :
    (∀ g ∈ type_groups, t.admin_type = "" → t.type ∈ g.2 →
        (∃ p ∈ outputBuckets adminTypes store conf status, p.1 = g.1 ∧ t ∈ p.2)
        ∧ ∀ p ∈ outputBuckets adminTypes store conf status, t ∈ p.2 → p.1 = g.1)
    ∧ (t.admin_type ≠ "" →
        ∀ p ∈ outputBuckets adminTypes store conf status, t ∈ p.2 →
          ∃ a ∈ adminTypes, a.1 = t.admin_type ∧ p.1 = a.2)
    ∧ ((outputBuckets adminTypes store conf status).map Prod.fst).Nodup := by
  have hbg := buildTalksGroups_eq adminTypes store conf status hndNames hdisj
  refine ⟨?_, ?_, keys_outputBuckets_nodup adminTypes store conf status hndNames hdisj⟩
  · intro g hg hadm hty
    have htmem : t ∈ g.2.flatMap (talksByType store conf status) :=
      List.mem_flatMap.mpr ⟨t.type, hty, mem_talksByType.mpr ⟨hmem, hconf, hstat, rfl, hadm⟩⟩
    constructor
    · refine ⟨(g.1, sortTalks (g.2.flatMap (talksByType store conf status))), ?_, rfl, ?_⟩
      · rw [mem_outputBuckets]
        refine ⟨(g.1, g.2.flatMap (talksByType store conf status)), ?_, ?_, rfl⟩
        · rw [hbg]
          exact List.mem_append_right _ (List.mem_map_of_mem _ hg)
        · exact List.ne_nil_of_mem htmem
      · exact mem_sortTalks.mpr htmem
    · intro p hp htp
      rw [mem_outputBuckets] at hp
      obtain ⟨q, hq, hne, rfl⟩ := hp
      have htp' : t ∈ sortTalks q.2 := htp
      rw [mem_sortTalks] at htp'
      rw [hbg] at hq
      rcases List.mem_append.mp hq with hq | hq
      · simp only [adminItems, List.mem_map] at hq
        obtain ⟨a, ha, rfl⟩ := hq
        have hta : t ∈ talksByAdmin store conf status a.1 := htp'
        have h4 : t.admin_type = a.1 := (mem_talksByAdmin.mp hta).2.2.2
        have ha1 : a.1 = "" := by rw [← h4, hadm]
        exact absurd ha1 (hcode a ha)
      · simp only [groupItems, List.mem_map] at hq
        obtain ⟨g', hg', rfl⟩ := hq
        have htg : t ∈ g'.2.flatMap (talksByType store conf status) := htp'
        obtain ⟨ty, hty2, hmem2⟩ := List.mem_flatMap.mp htg
        have hty' : t.type ∈ g'.2 := by
          rw [(mem_talksByType.mp hmem2).2.2.2.1]
          exact hty2
        have hgg : g = g' := type_groups_types_unique g hg g' hg' t.type hty hty'
        rw [← hgg]
  · intro hadm p hp htp
    rw [mem_outputBuckets] at hp
    obtain ⟨q, hq, hne, rfl⟩ := hp
    have htp' : t ∈ sortTalks q.2 := htp
    rw [mem_sortTalks] at htp'
    rw [hbg] at hq
    rcases List.mem_append.mp hq with hq | hq
    · simp only [adminItems, List.mem_map] at hq
      obtain ⟨a, ha, rfl⟩ := hq
      have hta : t ∈ talksByAdmin store conf status a.1 := htp'
      exact ⟨a, ha, ((mem_talksByAdmin.mp hta).2.2.2).symm, rfl⟩
    · simp only [groupItems, List.mem_map] at hq
      obtain ⟨g', hg', rfl⟩ := hq
      have htg : t ∈ g'.2.flatMap (talksByType store conf status) := htp'
      obtain ⟨ty, _, hmem2⟩ := List.mem_flatMap.mp htg
      exact absurd (mem_talksByType.mp hmem2).2.2.2.2 hadm

/-- Store of the C5 witness: a single accepted `t_45` talk with empty admin
type. -/
def fxStoreC5 : Store :=
  { ticketConferences := [], tickets := [], orders := [], talks := [fxTalkC4], votes := [] }

/-- Witness for C5: with one admin type `("k", "Keynote")` the `t_45` talk
lands in the `talk` bucket of the output. -/
theorem grouping_exclusive_witness :
    fxTalkC4 ∈ fxStoreC5.talks ∧ fxTalkC4.admin_type = "" ∧
      ∃ p ∈ outputBuckets [("k", "Keynote")] fxStoreC5 "ep2018" "accepted",
        p.1 = "talk" ∧ fxTalkC4 ∈ p.2 :=
  ⟨by decide, by decide,
    ((grouping_exclusive [("k", "Keynote")] fxStoreC5 "ep2018" "accepted" fxTalkC4
        (by decide) (by decide) (by decide) (by decide) (by decide) (by decide)).1
      ("talk", ["t_30", "t_45", "t_60"]) (by decide) (by decide) (by decide)).1⟩

/-! ## C7: buckets are sorted by the title-cased byte key -/

/-- Totality of byte-wise comparison. -/
theorem bytesLe_total (a b : List Nat) : bytesLe a b = true ∨ bytesLe b a = true := by
  induction a generalizing b with
  | nil => left; rfl
  | cons x xs ih =>
    cases b with
    | nil => right; rfl
    | cons y ys =>
      rcases lt_trichotomy x y with h | h | h
      · left; simp [bytesLe, h]
      · subst h
        have := ih ys
        simpa [bytesLe, lt_irrefl] using this
      · right; simp [bytesLe, h]

/-- Transitivity of byte-wise comparison. -/
theorem bytesLe_trans (a b c : List Nat) (h1 : bytesLe a b = true)
    (h2 : bytesLe b c = true) : bytesLe a c = true := by
  induction a generalizing b c with
  | nil => rfl
  | cons x xs ih =>
    cases b with
    | nil => simp [bytesLe] at h1
    | cons y ys =>
      cases c with
      | nil => simp [bytesLe] at h2
      | cons z zs =>
        rcases lt_trichotomy x y with hxy | hxy | hxy
        · rcases lt_trichotomy y z with hyz | hyz | hyz
          · simp [bytesLe, lt_trans hxy hyz]
          · subst hyz; simp [bytesLe, hxy]
          · have hn : ¬ y < z := asymm hyz
            simp [bytesLe, hn, hyz] at h2
        · subst hxy
          rcases lt_trichotomy x z with hxz | hxz | hxz
          · simp [bytesLe, hxz]
          · subst hxz
            have h1' : bytesLe xs ys = true := by
              simpa [bytesLe, lt_irrefl] using h1
            have h2' : bytesLe ys zs = true := by
              simpa [bytesLe, lt_irrefl] using h2
            simpa [bytesLe, lt_irrefl] using ih ys zs h1' h2'
          · have hn : ¬ x < z := asymm hxz
            simp [bytesLe, hn, hxz] at h2
        · have hn : ¬ x < y := asymm hxy
          simp [bytesLe, hn, hxy] at h1

instance : IsTotal Talk talkKeyLe :=
  ⟨fun a b => bytesLe_total (sortKey a) (sortKey b)⟩

instance : IsTrans Talk talkKeyLe :=
  ⟨fun _ _ _ h1 h2 => bytesLe_trans _ _ _ h1 h2⟩

/-- C7: every surviving output bucket is sorted ascending under
`talkKeyLe` — the byte-wise order on `clean_title(title).encode('utf-8')
.title()` keys — and is a permutation of the bucket built by the grouping
passes. -/
theorem buckets_sorted (adminTypes : List (String × String)) (store : Store)
    (conf status : String) :
    ∀ p ∈ outputBuckets adminTypes store conf status,
      List.Sorted talkKeyLe p.2 ∧
        ∃ q ∈ buildTalksGroups adminTypes store conf status,
          q.1 = p.1 ∧ List.Perm p.2 q.2 := by
  intro p hp
  rw [mem_outputBuckets] at hp
  obtain ⟨q, hq, hne, rfl⟩ := hp
  exact ⟨List.sorted_insertionSort talkKeyLe q.2,
    q, hq, rfl, List.perm_insertionSort talkKeyLe q.2⟩

/-- A talk titled `"zebra"`. -/
def fxTalkZ : Talk :=
  { fxTalkC4 with id := 7, title := "zebra", speakers := [] }

/-- A talk titled `"Apple"`. -/
def fxTalkA : Talk :=
  { fxTalkC4 with id := 8, title := "Apple", speakers := [] }

/-- Store of the C7 witness, listing the zebra talk first. -/
def fxStoreC7 : Store :=
  { ticketConferences := [], tickets := [], orders := [], talks := [fxTalkZ, fxTalkA],
    votes := [] }

/-- Witness for C7: the `talk` bucket comes out reordered as
`[Apple, zebra]` and is sorted under the title-cased byte key. -/
theorem buckets_sorted_witness :
    ("talk", [fxTalkA, fxTalkZ]) ∈ outputBuckets [("k", "Keynote")] fxStoreC7 "ep2018" "accepted" ∧
      List.Sorted talkKeyLe [fxTalkA, fxTalkZ] :=
  ⟨by decide,
    (buckets_sorted [("k", "Keynote")] fxStoreC7 "ep2018" "accepted"
      ("talk", [fxTalkA, fxTalkZ]) (by decide)).1⟩

/-! ## C10: the verbose flag cannot change the output -/

/-- C10: two runs over the same store that differ only in the verbose flag
produce identical output, and `talk_schedule` never emits the
unscheduled-talk warning, because the `VERBOSE = True` in `handle` binds a
function-local name while the module-level `VERBOSE` stays `False`. -/
theorem verbose_flag_no_effect (adminTypes : List (String × String)) (store : Store)
    (conf status : String) (votesFlag : Bool) :
    handleOutput adminTypes store conf
        { verbose := true, talk_status := status, votes := votesFlag } =
      handleOutput adminTypes store conf
        { verbose := false, talk_status := status, votes := votesFlag }
    ∧ ∀ t : Talk, (talk_schedule t).2 = [] := by
  constructor
  · rfl
  · intro t
    cases ht : t.event <;> simp [talk_schedule, VERBOSE, ht]
